import Mathlib

/-!
# my_websocket.cpp : an interactive WebSocket console client

A shallow embedding of `src/my_websocket.cpp`.  The program drives a third-party
transport (websocketpp) and the console; both are external.  They are modelled
by an environment `Env` that fixes the answers the collaborators give on one run
(the result of `get_connection`, the error code of every `send` and of `close`,
the events the event-loop thread hands to the handlers, the bytes on standard
input).  Everything the program does is recorded, in order, in `State.trace`.

The two `while` loops of `main` need not terminate, so they take a bound on the
number of iterations; `Loop.spinning` is the state after that many iterations
when the loop is still running.
-/

namespace MyWebsocket

/-! ## Data model -/

/-- Value of a `websocketpp::lib::error_code`: `none` is the cleared code (it
converts to `false`), `some msg` an error whose `message()` is `msg`. -/
abbrev error_code := Option String

/-- Identity of the connection object behind a `ws_client::connection_ptr`. -/
abbrev connection_ptr := Nat

/-- Value of a `websocketpp::connection_hdl`. -/
abbrev connection_hdl := Nat

/-- Model of `con->get_handle()`: the handle names the connection object. -/
def get_handle (con : connection_ptr) : connection_hdl := con

/-- Frame opcodes of `websocketpp::frame::opcode`. -/
inductive opcode where
  | continuation
  | text
  | binary
  | close
  | ping
  | pong
  deriving DecidableEq

/-- Close codes of `websocketpp::close::status` used or adjacent to the one used. -/
inductive close_status where
  | normal
  | going_away
  | protocol_error
  deriving DecidableEq

/-- Events the event loop (`run`) hands to the registered handlers. -/
inductive Event where
  | on_open
  | on_message (payload : String)
  | on_close
  | on_fail
  deriving DecidableEq

/-- Observable operations, in the order the program performs them. -/
inductive Op where
  | init_asio
  | set_open_handler
  | set_message_handler
  | set_close_handler
  | set_fail_handler
  | get_connection (uri : String)
  | connect (con : connection_ptr)
  | start_perpetual
  | stop_perpetual
  | thread_spawn
  | run
  | load_connected (value : Bool)
  | sleep_for (ms : Nat)
  | cout (text : String)
  | getline
  | send (hdl : connection_hdl) (payload : String) (op : opcode)
  | close (hdl : connection_hdl) (status : close_status) (reason : String)
  | join
  deriving DecidableEq

/-- State of `std::cin`: the unread bytes and the two state bits `getline` touches. -/
structure istream where
  buf : List Char
  eofbit : Bool
  failbit : Bool
  deriving DecidableEq

/-- Model of `std::ios::good()`. -/
def istream.good (s : istream) : Bool := !s.eofbit && !s.failbit

/-- Which of the client's four handler slots hold a handler. -/
structure Handlers where
  open_handler : Bool
  message_handler : Bool
  close_handler : Bool
  fail_handler : Bool
  deriving DecidableEq

/-- Program state: the trace so far, the `connected` flag, the handler slots of
`my_client`, `std::cin`, the local `message` of `main`, and how many times the
flag was loaded and `send` was called (they index the environment). -/
structure State where
  trace : List Op
  connected : Bool
  handlers : Handlers
  cin : istream
  message : String
  n_loads : Nat
  n_sends : Nat
  deriving DecidableEq

/-- The collaborators' answers on one run.  `delivered k` is the list of events the
event-loop thread handles after the previous load of `connected` by the main
thread (after the thread is spawned, for `k = 0`) and before load number `k`.
Events handled after the last load are left out: `main` does not read the flag
again, so they only add handler output. -/
structure Env where
  get_connection : String → connection_ptr × error_code
  send_ec : Nat → error_code
  close_ec : error_code
  delivered : Nat → List Event
  stdin : List Char

/-- Result of running a loop for a bounded number of iterations. -/
inductive Loop where
  | exited (st : State)
  | spinning (st : State)
  deriving DecidableEq

/-- Result of running `main` with bounded loops. -/
inductive Outcome where
  | returned (code : Int) (st : State)
  | running (st : State)
  deriving DecidableEq

/-- State carried by a loop result. -/
def Loop.state : Loop → State
  | .exited st => st
  | .spinning st => st

/-- State carried by an outcome. -/
def Outcome.state : Outcome → State
  | .returned _ st => st
  | .running st => st

/-- Append one operation to the trace. -/
def State.emit (st : State) (op : Op) : State := { st with trace := st.trace ++ [op] }

/-- The text `std::endl` writes. -/
def endl : String := "\n"

/-- The line delimiter of `std::getline`. -/
def delim : Char := Char.ofNat 10

/-! ## Handlers (`setup_handlers_impl`, lines 31-45) -/

/-- Body of the open handler (lines 32-35). -/
def open_handler (st : State) : State :=
  { st.emit (.cout ("Connection opened" ++ endl)) with connected := true }

/-- Body of the message handler (lines 36-38). -/
def message_handler (payload : String) (st : State) : State :=
  st.emit (.cout ("Received: " ++ payload ++ endl))

/-- Body of the close handler (lines 39-41). -/
def close_handler (st : State) : State :=
  st.emit (.cout ("Connection closed" ++ endl))

/-- Body of the fail handler (lines 42-44). -/
def fail_handler (st : State) : State :=
  st.emit (.cout ("Connection failed" ++ endl))

/-- `setup_handlers_impl`: fills the four handler slots of the client. -/
def setup_handlers_impl (st : State) : State :=
  let st := { st with handlers := { st.handlers with open_handler := true } }.emit .set_open_handler
  let st := { st with handlers := { st.handlers with message_handler := true } }.emit
    .set_message_handler
  let st := { st with handlers := { st.handlers with close_handler := true } }.emit
    .set_close_handler
  { st with handlers := { st.handlers with fail_handler := true } }.emit .set_fail_handler

/-- The transport invoking the handler registered for one event (none registered:
nothing runs). -/
def dispatch (ev : Event) (st : State) : State :=
  match ev with
  | .on_open => if st.handlers.open_handler then open_handler st else st
  | .on_message payload => if st.handlers.message_handler then message_handler payload st else st
  | .on_close => if st.handlers.close_handler then close_handler st else st
  | .on_fail => if st.handlers.fail_handler then fail_handler st else st

/-- The event-loop thread handling a sequence of events, one after the other. -/
def deliver (evs : List Event) (st : State) : State :=
  evs.foldl (fun s ev => dispatch ev s) st

/-! ## Wrappers (lines 47-97) -/

/-- `connect_impl` (lines 47-53): returns `con` and the error code `ec`. -/
def connect_impl (env : Env) (uri : String) (st : State) :
    connection_ptr × error_code × State :=
  let (con, ec) := env.get_connection uri
  let st := st.emit (.get_connection uri)
  match ec with
  | none => (con, ec, st.emit (.connect con))
  | some _ => (con, ec, st)

/-- `start_perpetual_impl` (lines 79-81). -/
def start_perpetual_impl (st : State) : State := st.emit .start_perpetual

/-- `stop_perpetual_impl` (lines 83-85). -/
def stop_perpetual_impl (st : State) : State := st.emit .stop_perpetual

/-- `run_impl` (lines 87-89). -/
def run_impl (st : State) : State := st.emit .run

/-- `send_message_impl` (lines 91-97). -/
def send_message_impl (env : Env) (con : connection_ptr) (message : String) (st : State) :
    State :=
  let send_ec := env.send_ec st.n_sends
  let st := { st with n_sends := st.n_sends + 1 }.emit
    (.send (get_handle con) message opcode.text)
  match send_ec with
  | some msg => st.emit (.cout ("Send error: " ++ msg ++ endl))
  | none => st

/-! ## Console input -/

/-- Characters `std::getline` extracts from the buffer: those before the first
delimiter, with what follows the delimiter (`none` when the buffer ends first). -/
def extract : List Char → List Char × Option (List Char)
  | [] => ([], none)
  | c :: cs =>
    if c = delim then ([], some cs)
    else ((c :: (extract cs).1), (extract cs).2)

/-- Model of `std::getline(cin, str)`.  When the stream is not good the sentry
fails: `failbit` is set and `str` is left as it was.  Otherwise `str` is erased
and filled up to the delimiter, which is dropped; when the input ends first
`eofbit` is set, and `failbit` too if nothing was extracted. -/
def getline (cin : istream) (str : String) : istream × String :=
  if cin.good then
    match extract cin.buf with
    | (line, some rest) => ({ cin with buf := rest }, String.mk line)
    | (line, none) =>
      ({ buf := [], eofbit := true, failbit := cin.failbit || line.isEmpty }, String.mk line)
  else ({ cin with failbit := true }, str)

/-! ## `main` (lines 122-174) -/

/-- The URI `main` connects to (line 138). -/
def uri : String := "ws://echo.websocket.events"

/-- The prompt of the send loop (line 156). -/
def prompt_text : String := "Enter message to send (or 'exit' to quit): "

/-- The loop `while (!connected) sleep_for(100ms)` (lines 150-152), at most `fuel` loads. -/
def wait_loop (env : Env) : Nat → State → Loop
  | 0, st => .spinning st
  | fuel + 1, st =>
    let st := deliver (env.delivered st.n_loads) st
    let value := st.connected
    let st := { st with n_loads := st.n_loads + 1 }.emit (.load_connected value)
    if !value then wait_loop env fuel (st.emit (.sleep_for 100))
    else .exited st

/-- The loop `while (true)` of lines 155-162, at most `fuel` iterations. -/
def send_loop (env : Env) (con : connection_ptr) : Nat → State → Loop
  | 0, st => .spinning st
  | fuel + 1, st =>
    let st := st.emit (.cout prompt_text)
    let r := getline st.cin st.message
    let st := { st with cin := r.1, message := r.2 }.emit .getline
    if st.message = "exit" then .exited st
    else send_loop env con fuel (send_message_impl env con st.message st)

/-- The shutdown sequence of lines 164-172. -/
def shutdown (env : Env) (con : connection_ptr) (st : State) : State :=
  let close_ec := env.close_ec
  let st := st.emit (.close (get_handle con) close_status.normal "Client exit")
  let st := match close_ec with
    | some msg => st.emit (.cout ("Close error: " ++ msg ++ endl))
    | none => st
  let st := stop_perpetual_impl st
  st.emit .join

/-- The state `main` starts in: nothing done, no handler set, `std::cin` fresh on
the input of the run. -/
def initial (env : Env) : State :=
  { trace := [], connected := false,
    handlers := { open_handler := false, message_handler := false,
                  close_handler := false, fail_handler := false },
    cin := { buf := env.stdin, eofbit := false, failbit := false },
    message := "", n_loads := 0, n_sends := 0 }

/-- Lines 146-148 of `main`: perpetual mode is started, then the thread `t` whose
body calls `run` is created. -/
def launch (st : State) : State :=
  let st := start_perpetual_impl st
  let st := st.emit .thread_spawn
  run_impl st

/-- `main` (lines 122-174); `ws_ops` holds the six `_impl` functions, which are
called directly here.  Each loop runs for at most `fuel` iterations. -/
def main (env : Env) (fuel : Nat) : Outcome :=
  let st := (initial env).emit .init_asio
  let st := { st with connected := false }
  let st := setup_handlers_impl st
  match connect_impl env uri st with
  | (_, some msg, st) => .returned (-1) (st.emit (.cout ("Connection error: " ++ msg ++ endl)))
  | (con, none, st) =>
    let st := launch st
    match wait_loop env fuel st with
    | .spinning st => .running st
    | .exited st =>
      let st := { st with message := "" }
      match send_loop env con fuel st with
      | .spinning st => .running st
      | .exited st => .returned 0 (shutdown env con st)

/-! ## Vocabulary of the statements -/

/-- The lines of a console input: the pieces between delimiters (an input that
ends in a delimiter has an empty last line). -/
def split_lines : List Char → List (List Char)
  | [] => [[]]
  | c :: cs =>
    if c = delim then [] :: split_lines cs
    else
      match split_lines cs with
      | [] => [[c]]
      | l :: ls => (c :: l) :: ls

/-- The lines of a console input, as strings. -/
def lines (input : List Char) : List String := (split_lines input).map String.mk

/-- The frames sent in a trace, in order: handle, payload, opcode. -/
def sends : List Op → List (connection_hdl × String × opcode)
  | [] => []
  | .send hdl payload op :: rest => (hdl, payload, op) :: sends rest
  | _ :: rest => sends rest

/-! ## Further vocabulary of the statements, and environments for the instances -/

/-- Texts the four handlers write. -/
def handler_text (s : String) : Prop :=
  s = "Connection opened" ++ endl ∨ (∃ payload, s = "Received: " ++ payload ++ endl) ∨
    s = "Connection closed" ++ endl ∨ s = "Connection failed" ++ endl

/-- Operations the handlers perform: writing one of their texts. -/
def handler_op (op : Op) : Prop := ∃ s, op = Op.cout s ∧ handler_text s

/-- Operations that occur while the main thread waits for the flag: handler output,
a load of the flag that yields false, a sleep of 100 ms. -/
def waiting_op (op : Op) : Prop :=
  handler_op op ∨ op = Op.load_connected false ∨ op = Op.sleep_for 100

/-- The state after one load of the flag in `wait_loop`. -/
def after_load (env : Env) (st : State) : State :=
  { deliver (env.delivered st.n_loads) st with
      n_loads := (deliver (env.delivered st.n_loads) st).n_loads + 1 }.emit
    (Op.load_connected (deliver (env.delivered st.n_loads) st).connected)

/-- The state of `main` after the prompt and the `getline` call of one iteration. -/
def after_read (st : State) : State :=
  { st.emit (Op.cout prompt_text) with
      cin := (getline st.cin st.message).1,
      message := (getline st.cin st.message).2 }.emit Op.getline

/-- Output of `send_message_impl` for the error code the transport reported. -/
def send_log (ec : error_code) : List Op :=
  match ec with
  | some msg => [Op.cout ("Send error: " ++ msg ++ endl)]
  | none => []

/-- Operations of one iteration of the send loop that reads the line `L` (not
"exit") when `k` sends were issued before. -/
def iteration_ops (env : Env) (con : connection_ptr) (k : Nat) (L : String) : List Op :=
  [Op.cout prompt_text, Op.getline, Op.send (get_handle con) L opcode.text] ++
    send_log (env.send_ec k)

/-- Operations of successive iterations reading the lines `Ls`. -/
def loop_ops (env : Env) (con : connection_ptr) : Nat → List String → List Op
  | _, [] => []
  | k, L :: Ls => iteration_ops env con k L ++ loop_ops env con (k + 1) Ls

/-- The messages the first `n` iterations read from an input with lines `ls` none of
which is "exit": the lines in order, then the last line again and again (after the
end of the input `getline` fails and leaves `message` as it was). -/
def expected_messages (ls : List String) (n : Nat) : List String :=
  (ls ++ List.replicate n (ls.getLastD "")).take n

/-- Operations of the send loop: console output, reading a line, sending a text
frame on the handle of `con`. -/
def sending_op (con : connection_ptr) (op : Op) : Prop :=
  (∃ s, op = Op.cout s) ∨ op = Op.getline ∨
    ∃ payload, op = Op.send (get_handle con) payload opcode.text

/-- Two states agree on the console and on the frames sent so far. -/
def same_console (a b : State) : Prop :=
  a.cin = b.cin ∧ a.message = b.message ∧ sends a.trace = sends b.trace

/-- Operations of `main` up to the launch of the event-loop thread, on a run on
which `get_connection` returned `con` without error. -/
def startup_ops (con : connection_ptr) : List Op :=
  [Op.init_asio, Op.set_open_handler, Op.set_message_handler, Op.set_close_handler,
   Op.set_fail_handler, Op.get_connection uri, Op.connect con, Op.start_perpetual,
   Op.thread_spawn, Op.run]

/-- State of `main` when it starts to wait for the flag. -/
def started (env : Env) (con : connection_ptr) : State :=
  { trace := startup_ops con, connected := false,
    handlers := { open_handler := true, message_handler := true,
                  close_handler := true, fail_handler := true },
    cin := { buf := env.stdin, eofbit := false, failbit := false },
    message := "", n_loads := 0, n_sends := 0 }

/-- Output of the shutdown sequence for the error code `close` reported. -/
def close_log (ec : error_code) : List Op :=
  match ec with
  | some msg => [Op.cout ("Close error: " ++ msg ++ endl)]
  | none => []

/-- Operations of the shutdown sequence proper. -/
def shutdown_op (op : Op) : Prop :=
  (∃ hdl status reason, op = Op.close hdl status reason) ∨ op = Op.stop_perpetual ∨
    op = Op.join

/-- Number of `getline` calls in a trace. -/
def reads : List Op → Nat
  | [] => 0
  | .getline :: rest => reads rest + 1
  | _ :: rest => reads rest

/-- An environment for examples: resolution succeeds with connection 7, the second
send and the close report errors, the connection opens before the third load of
the flag, and the input has near-misses of "exit" before an "exit" line. -/
def demo_env : Env :=
  { get_connection := fun _ => (7, none),
    send_ec := fun k => if k = 1 then some "invalid state" else none,
    close_ec := some "invalid state",
    delivered := fun k => if k = 2 then [Event.on_fail, Event.on_open] else [],
    stdin := "\nExit\n exit\nexit \nexit\nlater\n".data }

/-- An environment for examples whose input ends, without a final delimiter, before
any "exit" line, and to which no open event is ever delivered. -/
def eof_env : Env :=
  { get_connection := fun _ => (7, none),
    send_ec := fun _ => none,
    close_ec := none,
    delivered := fun k => if k = 0 then [Event.on_fail] else [Event.on_message "x"],
    stdin := "a\nb".data }

/-- An environment for examples on which connection resolution fails. -/
def failing_env : Env :=
  { get_connection := fun _ => (0, some "invalid uri"),
    send_ec := fun _ => none,
    close_ec := none,
    delivered := fun _ => [Event.on_open],
    stdin := "exit\n".data }

/-- Whether a bounded run of a loop left the loop. -/
def Loop.has_exited : Loop → Bool
  | .exited _ => true
  | .spinning _ => false

/-- The environment `env` with every send succeeding. -/
def without_send_errors (env : Env) : Env := { env with send_ec := fun _ => none }

/-! ## Basic facts about the building blocks -/

@[simp] theorem emit_trace (st : State) (op : Op) : (st.emit op).trace = st.trace ++ [op] := rfl
@[simp] theorem emit_connected (st : State) (op : Op) : (st.emit op).connected = st.connected := rfl
@[simp] theorem emit_handlers (st : State) (op : Op) : (st.emit op).handlers = st.handlers := rfl
@[simp] theorem emit_cin (st : State) (op : Op) : (st.emit op).cin = st.cin := rfl
@[simp] theorem emit_message (st : State) (op : Op) : (st.emit op).message = st.message := rfl
@[simp] theorem emit_n_loads (st : State) (op : Op) : (st.emit op).n_loads = st.n_loads := rfl
@[simp] theorem emit_n_sends (st : State) (op : Op) : (st.emit op).n_sends = st.n_sends := rfl

/-- C6: `connect_impl` returns the connection pointer and the error code exactly as
`get_connection` produced them, and after the `get_connection` call it performs
`connect` on that pointer once when the error code is clear and not at all otherwise;
nothing else changes. -/
theorem connect_impl_spec (env : Env) (u : String) (st : State) :
    (connect_impl env u st).1 = (env.get_connection u).1 ∧
    (connect_impl env u st).2.1 = (env.get_connection u).2 ∧
    (connect_impl env u st).2.2 =
      { st with trace := st.trace ++ [Op.get_connection u] ++
          (if (env.get_connection u).2 = none then [Op.connect (env.get_connection u).1]
           else []) } ∧
    (∀ c, Op.connect c ∈ ((connect_impl env u st).2.2.trace.drop st.trace.length) ↔
      ((env.get_connection u).2 = none ∧ c = (env.get_connection u).1)) := by
  unfold connect_impl
  rcases hgc : env.get_connection u with ⟨con, ec⟩
  cases ec with
  | none => simp [State.emit, eq_comm]
  | some msg => simp [State.emit]

theorem handler_text_ne_prompt (s : String) (h : handler_text s) : s ≠ prompt_text := by
  rcases h with h | ⟨p, h⟩ | h | h
  · subst h; decide
  · subst h
    intro h
    have h2 := congrArg (fun t => t.data.head?) h
    simp [prompt_text, String.data_append] at h2
  · subst h; decide
  · subst h; decide

theorem dispatch_handlers (ev : Event) (st : State) :
    (dispatch ev st).handlers = st.handlers := by
  cases ev <;> simp only [dispatch] <;> split <;>
    simp [open_handler, message_handler, close_handler, fail_handler]

theorem dispatch_connected (ev : Event) (st : State) :
    (dispatch ev st).connected =
      (st.connected || (st.handlers.open_handler && decide (ev = Event.on_open))) := by
  cases ev <;> simp only [dispatch] <;> split <;>
    simp_all [open_handler, message_handler, close_handler, fail_handler]

theorem dispatch_rest (ev : Event) (st : State) :
    (dispatch ev st).cin = st.cin ∧ (dispatch ev st).message = st.message ∧
    (dispatch ev st).n_loads = st.n_loads ∧ (dispatch ev st).n_sends = st.n_sends := by
  cases ev <;> simp only [dispatch] <;> split <;>
    simp [open_handler, message_handler, close_handler, fail_handler]

theorem dispatch_trace (ev : Event) (st : State) :
    ∃ w, (dispatch ev st).trace = st.trace ++ w ∧ ∀ op ∈ w, handler_op op := by
  cases ev with
  | on_open =>
    by_cases h : st.handlers.open_handler = true
    · exact ⟨[Op.cout ("Connection opened" ++ endl)], by simp [dispatch, h, open_handler],
        by simp [handler_op, handler_text]⟩
    · exact ⟨[], by simp [dispatch, h], by simp⟩
  | on_message payload =>
    by_cases h : st.handlers.message_handler = true
    · exact ⟨[Op.cout ("Received: " ++ payload ++ endl)],
        by simp [dispatch, h, message_handler],
        by
          intro op hop
          rw [List.mem_singleton] at hop
          exact ⟨_, hop, Or.inr (Or.inl ⟨payload, rfl⟩)⟩⟩
    · exact ⟨[], by simp [dispatch, h], by simp⟩
  | on_close =>
    by_cases h : st.handlers.close_handler = true
    · exact ⟨[Op.cout ("Connection closed" ++ endl)], by simp [dispatch, h, close_handler],
        by simp [handler_op, handler_text]⟩
    · exact ⟨[], by simp [dispatch, h], by simp⟩
  | on_fail =>
    by_cases h : st.handlers.fail_handler = true
    · exact ⟨[Op.cout ("Connection failed" ++ endl)], by simp [dispatch, h, fail_handler],
        by simp [handler_op, handler_text]⟩
    · exact ⟨[], by simp [dispatch, h], by simp⟩

theorem deliver_nil (st : State) : deliver [] st = st := rfl

theorem deliver_cons (ev : Event) (evs : List Event) (st : State) :
    deliver (ev :: evs) st = deliver evs (dispatch ev st) := rfl

theorem deliver_handlers (evs : List Event) (st : State) :
    (deliver evs st).handlers = st.handlers := by
  induction evs generalizing st with
  | nil => rfl
  | cons ev evs ih => rw [deliver_cons, ih, dispatch_handlers]

theorem deliver_connected (evs : List Event) (st : State) :
    (deliver evs st).connected =
      (st.connected || (st.handlers.open_handler && decide (Event.on_open ∈ evs))) := by
  induction evs generalizing st with
  | nil => simp [deliver_nil]
  | cons ev evs ih =>
    rw [deliver_cons, ih, dispatch_connected, dispatch_handlers]
    cases st.connected <;> cases st.handlers.open_handler <;> cases ev <;> simp

theorem deliver_rest (evs : List Event) (st : State) :
    (deliver evs st).cin = st.cin ∧ (deliver evs st).message = st.message ∧
    (deliver evs st).n_loads = st.n_loads ∧ (deliver evs st).n_sends = st.n_sends := by
  induction evs generalizing st with
  | nil => simp [deliver_nil]
  | cons ev evs ih =>
    rw [deliver_cons]
    obtain ⟨h1, h2, h3, h4⟩ := ih (dispatch ev st)
    obtain ⟨g1, g2, g3, g4⟩ := dispatch_rest ev st
    exact ⟨h1.trans g1, h2.trans g2, h3.trans g3, h4.trans g4⟩

theorem deliver_trace (evs : List Event) (st : State) :
    ∃ w, (deliver evs st).trace = st.trace ++ w ∧ ∀ op ∈ w, handler_op op := by
  induction evs generalizing st with
  | nil => exact ⟨[], by simp [deliver_nil], by simp⟩
  | cons ev evs ih =>
    obtain ⟨w1, h1, g1⟩ := dispatch_trace ev st
    obtain ⟨w2, h2, g2⟩ := ih (dispatch ev st)
    refine ⟨w1 ++ w2, ?_, ?_⟩
    · rw [deliver_cons, h2, h1, List.append_assoc]
    · intro op hop
      rcases List.mem_append.1 hop with h | h
      · exact g1 op h
      · exact g2 op h

/-! ## The wait on the flag -/

theorem wait_loop_zero (env : Env) (st : State) : wait_loop env 0 st = Loop.spinning st := rfl

theorem wait_loop_succ (env : Env) (fuel : Nat) (st : State) :
    wait_loop env (fuel + 1) st =
      if (deliver (env.delivered st.n_loads) st).connected = true then
        Loop.exited (after_load env st)
      else wait_loop env fuel ((after_load env st).emit (Op.sleep_for 100)) := by
  cases h : (deliver (env.delivered st.n_loads) st).connected <;>
    simp [wait_loop, after_load, h]

theorem after_load_fields (env : Env) (st : State) :
    (after_load env st).cin = st.cin ∧ (after_load env st).message = st.message ∧
    (after_load env st).n_sends = st.n_sends ∧ (after_load env st).handlers = st.handlers ∧
    (after_load env st).n_loads = st.n_loads + 1 ∧
    (after_load env st).connected = (deliver (env.delivered st.n_loads) st).connected := by
  obtain ⟨h1, h2, h3, h4⟩ := deliver_rest (env.delivered st.n_loads) st
  simp [after_load, h1, h2, h3, h4, deliver_handlers]

theorem after_load_trace (env : Env) (st : State) :
    ∃ w, (after_load env st).trace = st.trace ++ w ++
        [Op.load_connected (deliver (env.delivered st.n_loads) st).connected] ∧
      ∀ op ∈ w, handler_op op := by
  obtain ⟨w, hw, hq⟩ := deliver_trace (env.delivered st.n_loads) st
  exact ⟨w, by simp [after_load, hw], hq⟩

/-- What `wait_loop` does: it only performs waiting operations, it leaves the
console and the send counter alone, and when it exits the last thing it did was
to load `true` from the flag. -/
theorem wait_loop_spec (env : Env) (fuel : Nat) (st : State) :
    (wait_loop env fuel st).state.cin = st.cin ∧
    (wait_loop env fuel st).state.message = st.message ∧
    (wait_loop env fuel st).state.n_sends = st.n_sends ∧
    (wait_loop env fuel st).state.handlers = st.handlers ∧
    (∀ st1, wait_loop env fuel st = Loop.exited st1 →
      st1.connected = true ∧
      ∃ w, st1.trace = st.trace ++ w ++ [Op.load_connected true] ∧ ∀ op ∈ w, waiting_op op) ∧
    (∀ st1, wait_loop env fuel st = Loop.spinning st1 →
      ∃ w, st1.trace = st.trace ++ w ∧ ∀ op ∈ w, waiting_op op) := by
  induction fuel generalizing st with
  | zero =>
    refine ⟨rfl, rfl, rfl, rfl, ?_, ?_⟩
    · intro st1 h; simp [wait_loop_zero] at h
    · intro st1 h
      simp only [wait_loop_zero, Loop.spinning.injEq] at h
      exact ⟨[], by simp [h], by simp⟩
  | succ fuel ih =>
    obtain ⟨f1, f2, f3, f4, _, f6⟩ := after_load_fields env st
    obtain ⟨w, hw, hq⟩ := after_load_trace env st
    rw [wait_loop_succ]
    by_cases hc : (deliver (env.delivered st.n_loads) st).connected = true
    · rw [if_pos hc]
      refine ⟨f1, f2, f3, f4, ?_, ?_⟩
      · intro st1 h
        simp only [Loop.exited.injEq] at h
        subst h
        refine ⟨by rw [f6, hc], w, by rw [hw, hc], ?_⟩
        intro op hop
        exact Or.inl (hq op hop)
      · intro st1 h; simp at h
    · rw [if_neg hc]
      have hc2 : (deliver (env.delivered st.n_loads) st).connected = false := by
        simpa using hc
      obtain ⟨i1, i2, i3, i4, i5, i6⟩ := ih ((after_load env st).emit (Op.sleep_for 100))
      refine ⟨by simpa [f1] using i1, by simpa [f2] using i2, by simpa [f3] using i3,
        by simpa [f4] using i4, ?_, ?_⟩
      · intro st1 h
        obtain ⟨g1, w2, g2, g3⟩ := i5 st1 h
        refine ⟨g1, w ++ [Op.load_connected false, Op.sleep_for 100] ++ w2, ?_, ?_⟩
        · rw [g2, emit_trace, hw, hc2]; simp
        · intro op hop
          simp only [List.mem_append, List.mem_cons, List.mem_singleton, List.not_mem_nil,
            or_false] at hop
          rcases hop with (h | h | h) | h
          · exact Or.inl (hq op h)
          · exact Or.inr (Or.inl h)
          · exact Or.inr (Or.inr h)
          · exact g3 op h
      · intro st1 h
        obtain ⟨w2, g2, g3⟩ := i6 st1 h
        refine ⟨w ++ [Op.load_connected false, Op.sleep_for 100] ++ w2, ?_, ?_⟩
        · rw [g2, emit_trace, hw, hc2]; simp
        · intro op hop
          simp only [List.mem_append, List.mem_cons, List.mem_singleton, List.not_mem_nil,
            or_false] at hop
          rcases hop with (h | h | h) | h
          · exact Or.inl (hq op h)
          · exact Or.inr (Or.inl h)
          · exact Or.inr (Or.inr h)
          · exact g3 op h

/-- While no open event is delivered the wait goes on: after `fuel` loads the loop
is still spinning with the flag false. -/
theorem wait_loop_no_open (env : Env) (fuel : Nat) (st : State)
    (hc : st.connected = false)
    (hno : ∀ k, k < fuel → Event.on_open ∉ env.delivered (st.n_loads + k)) :
    ∃ st1, wait_loop env fuel st = Loop.spinning st1 ∧ st1.connected = false ∧
      st1.n_loads = st.n_loads + fuel := by
  induction fuel generalizing st with
  | zero => exact ⟨st, rfl, hc, rfl⟩
  | succ fuel ih =>
    obtain ⟨_, _, _, _, f5, f6⟩ := after_load_fields env st
    have h0 : (deliver (env.delivered st.n_loads) st).connected = false := by
      rw [deliver_connected, hc]
      have := hno 0 (Nat.succ_pos _)
      simp only [Nat.add_zero] at this
      simp [this]
    rw [wait_loop_succ, h0]
    simp only [Bool.false_eq_true, if_false]
    obtain ⟨st1, g1, g2, g3⟩ := ih ((after_load env st).emit (Op.sleep_for 100))
      (by rw [emit_connected, f6, h0])
      (by
        intro k hk
        rw [emit_n_loads, f5]
        have := hno (k + 1) (Nat.succ_lt_succ hk)
        rwa [show st.n_loads + 1 + k = st.n_loads + (k + 1) by omega])
    refine ⟨st1, g1, g2, ?_⟩
    rw [g3, emit_n_loads, f5]; omega

/-- Once an open event is delivered with the open handler registered, the wait ends
at the next load at the latest. -/
theorem wait_loop_exits (env : Env) (d : Nat) (st : State)
    (hh : st.handlers.open_handler = true)
    (hopen : Event.on_open ∈ env.delivered (st.n_loads + d)) (fuel : Nat) (hf : d < fuel) :
    ∃ st1, wait_loop env fuel st = Loop.exited st1 := by
  induction d generalizing st fuel with
  | zero =>
    obtain ⟨n, rfl⟩ : ∃ n, fuel = n + 1 := ⟨fuel - 1, by omega⟩
    have h0 : (deliver (env.delivered st.n_loads) st).connected = true := by
      rw [deliver_connected, hh]
      simp only [Nat.add_zero] at hopen
      simp [hopen]
    exact ⟨_, by rw [wait_loop_succ, if_pos h0]⟩
  | succ d ih =>
    obtain ⟨n, rfl⟩ : ∃ n, fuel = n + 1 := ⟨fuel - 1, by omega⟩
    obtain ⟨_, _, _, f4, f5, _⟩ := after_load_fields env st
    rw [wait_loop_succ]
    by_cases hc : (deliver (env.delivered st.n_loads) st).connected = true
    · exact ⟨_, by rw [if_pos hc]⟩
    · rw [if_neg hc]
      apply ih
      · rw [emit_handlers, f4, hh]
      · rw [emit_n_loads, f5]
        rwa [show st.n_loads + 1 + d = st.n_loads + (d + 1) by omega]
      · omega

/-! ## Console input and the send loop -/

theorem split_lines_extract (input : List Char) :
    split_lines input = (extract input).1 ::
      (match (extract input).2 with
       | some rest => split_lines rest
       | none => []) := by
  induction input with
  | nil => rfl
  | cons c cs ih =>
    by_cases hc : c = delim
    · simp [split_lines, extract, hc]
    · simp only [split_lines, extract, if_neg hc]
      rw [ih]

theorem lines_extract (input : List Char) :
    lines input = String.mk (extract input).1 ::
      (match (extract input).2 with
       | some rest => lines rest
       | none => []) := by
  unfold lines
  rw [split_lines_extract]
  cases (extract input).2 <;> simp

theorem lines_ne_nil (input : List Char) : lines input ≠ [] := by
  rw [lines_extract]; simp

theorem getline_good (input : List Char) (str : String) :
    getline { buf := input, eofbit := false, failbit := false } str =
      (match (extract input).2 with
       | some rest => { buf := rest, eofbit := false, failbit := false }
       | none => { buf := [], eofbit := true, failbit := (extract input).1.isEmpty },
       String.mk (extract input).1) := by
  unfold getline
  rcases h : extract input with ⟨line, _ | rest⟩ <;> simp [istream.good]

theorem getline_not_good (cin : istream) (str : String) (h : cin.good = false) :
    getline cin str = ({ cin with failbit := true }, str) := by
  simp [getline, h]

theorem send_loop_zero (env : Env) (con : connection_ptr) (st : State) :
    send_loop env con 0 st = Loop.spinning st := rfl

theorem send_loop_succ (env : Env) (con : connection_ptr) (fuel : Nat) (st : State) :
    send_loop env con (fuel + 1) st =
      if (after_read st).message = "exit" then Loop.exited (after_read st)
      else send_loop env con fuel
        (send_message_impl env con (after_read st).message (after_read st)) := rfl

theorem send_message_impl_eq (env : Env) (con : connection_ptr) (message : String)
    (st : State) :
    send_message_impl env con message st =
      { st with
          trace := st.trace ++ [Op.send (get_handle con) message opcode.text] ++
            send_log (env.send_ec st.n_sends),
          n_sends := st.n_sends + 1 } := by
  unfold send_message_impl send_log
  cases env.send_ec st.n_sends <;> simp [State.emit]

/-- One iteration on a line other than "exit": the state the loop continues from. -/
theorem iteration_state (env : Env) (con : connection_ptr) (st : State) :
    send_message_impl env con (after_read st).message (after_read st) =
      { st with
          trace := st.trace ++ iteration_ops env con st.n_sends (after_read st).message,
          cin := (getline st.cin st.message).1,
          message := (getline st.cin st.message).2,
          n_sends := st.n_sends + 1 } := by
  rw [send_message_impl_eq]
  simp [after_read, State.emit, iteration_ops]

theorem sends_append (a b : List Op) : sends (a ++ b) = sends a ++ sends b := by
  induction a with
  | nil => rfl
  | cons op a ih => cases op <;> simp [sends, ih]

theorem sends_send_log (ec : error_code) : sends (send_log ec) = [] := by
  cases ec <;> rfl

theorem sends_loop_ops (env : Env) (con : connection_ptr) (k : Nat) (Ls : List String) :
    sends (loop_ops env con k Ls) = Ls.map (fun L => (get_handle con, L, opcode.text)) := by
  induction Ls generalizing k with
  | nil => rfl
  | cons L Ls ih =>
    simp [loop_ops, iteration_ops, sends_append, sends, sends_send_log, ih]

/-- Iterations on lines other than "exit" that are followed by further lines: the
loop consumes them one by one and goes on. -/
theorem send_loop_lines (env : Env) (con : connection_ptr) (pre : List String)
    (input : List Char) (tail : List String) (st : State)
    (hcin : st.cin = { buf := input, eofbit := false, failbit := false })
    (hl : lines input = pre ++ tail) (ht : tail ≠ []) (hpre : "exit" ∉ pre) :
    ∃ st1, (∀ k, send_loop env con (pre.length + k) st = send_loop env con k st1) ∧
      st1.cin.eofbit = false ∧ st1.cin.failbit = false ∧ lines st1.cin.buf = tail ∧
      st1.trace = st.trace ++ loop_ops env con st.n_sends pre ∧
      st1.n_sends = st.n_sends + pre.length := by
  induction pre generalizing input st with
  | nil =>
    refine ⟨st, fun k => by simp, by rw [hcin], by rw [hcin], ?_, by simp [loop_ops], rfl⟩
    rw [hcin]; simpa using hl
  | cons L pre ih =>
    rw [lines_extract] at hl
    simp only [List.cons_append, List.cons.injEq] at hl
    obtain ⟨hL, htl⟩ := hl
    have hne : pre ++ tail ≠ [] := by simp [ht]
    rcases hx : (extract input).2 with _ | rest
    · rw [hx] at htl; exact absurd htl.symm hne
    · rw [hx] at htl
      have hg := getline_good input st.message
      rw [hx] at hg
      simp only at hg
      have hmsg : (after_read st).message = L := by
        simp [after_read, hcin, hg, hL]
      have hLne : L ≠ "exit" := fun h => hpre (by simp [h])
      have hstep : ∀ k, send_loop env con ((L :: pre).length + k) st =
          send_loop env con (pre.length + k)
            { st with
                trace := st.trace ++ iteration_ops env con st.n_sends L,
                cin := (getline st.cin st.message).1,
                message := (getline st.cin st.message).2,
                n_sends := st.n_sends + 1 } := by
        intro k
        rw [show (L :: pre).length + k = (pre.length + k) + 1 by simp; omega,
          send_loop_succ, if_neg (by rw [hmsg]; exact hLne), iteration_state, hmsg]
      obtain ⟨st1, g1, g2, g3, g4, g5, g6⟩ := ih rest
        { st with
            trace := st.trace ++ iteration_ops env con st.n_sends L,
            cin := (getline st.cin st.message).1,
            message := (getline st.cin st.message).2,
            n_sends := st.n_sends + 1 }
        (by simp [hcin, hg]) htl (fun h => hpre (List.mem_cons_of_mem _ h))
      refine ⟨st1, fun k => by rw [hstep k, g1 k], g2, g3, g4, ?_, ?_⟩
      · rw [g5]; simp [loop_ops]
      · rw [g6]; simp; omega

/-- After the end of the input (the stream is not good) with a message other than
"exit", every iteration sends the same message again. -/
theorem send_loop_eof (env : Env) (con : connection_ptr) (n : Nat) (st : State)
    (hbad : st.cin.good = false) (hm : st.message ≠ "exit") :
    ∃ st1, send_loop env con n st = Loop.spinning st1 ∧
      st1.trace = st.trace ++ loop_ops env con st.n_sends (List.replicate n st.message) := by
  induction n generalizing st with
  | zero => exact ⟨st, rfl, by simp [loop_ops]⟩
  | succ n ih =>
    have hg := getline_not_good st.cin st.message hbad
    have hmsg : (after_read st).message = st.message := by simp [after_read, hg]
    rw [send_loop_succ, if_neg (by rw [hmsg]; exact hm), iteration_state, hmsg]
    obtain ⟨st1, g1, g2⟩ := ih
      { st with
          trace := st.trace ++ iteration_ops env con st.n_sends st.message,
          cin := (getline st.cin st.message).1,
          message := (getline st.cin st.message).2,
          n_sends := st.n_sends + 1 }
      (by simp [hg, istream.good]) (by simpa [hg] using hm)
    refine ⟨st1, g1, ?_⟩
    rw [g2]
    simp [hg, List.replicate_succ, loop_ops]

theorem take_append_replicate (ls : List String) (x : String) (n m : Nat) (h : n ≤ m) :
    (ls ++ List.replicate m x).take n = (ls ++ List.replicate n x).take n := by
  induction ls generalizing n m with
  | nil => simp [List.take_replicate, Nat.min_eq_left h]
  | cons a ls ih =>
    cases n with
    | zero => simp
    | succ n =>
      simp only [List.cons_append, List.take_succ_cons, List.cons.injEq, true_and]
      rw [ih n m (by omega), ← ih n (n + 1) (Nat.le_succ n)]

theorem expected_messages_cons (L : String) (ls : List String) (n : Nat) (h : ls ≠ []) :
    expected_messages (L :: ls) (n + 1) = L :: expected_messages ls n := by
  unfold expected_messages
  cases ls with
  | nil => exact absurd rfl h
  | cons a ls =>
    have h1 : (L :: a :: ls).getLastD "" = (a :: ls).getLastD "" := by simp
    rw [h1, List.cons_append, List.take_succ_cons,
      take_append_replicate _ _ n (n + 1) (Nat.le_succ n)]

theorem expected_messages_single (L : String) (n : Nat) :
    expected_messages [L] (n + 1) = L :: List.replicate n L := by
  unfold expected_messages
  simp [List.take_replicate]

/-- On an input without an "exit" line the loop is still running after any number
of iterations, and what it did is determined by the lines of the input. -/
theorem send_loop_no_exit (env : Env) (con : connection_ptr) (n : Nat) (input : List Char)
    (st : State) (hcin : st.cin = { buf := input, eofbit := false, failbit := false })
    (hno : "exit" ∉ lines input) :
    ∃ st1, send_loop env con n st = Loop.spinning st1 ∧
      st1.trace = st.trace ++
        loop_ops env con st.n_sends (expected_messages (lines input) n) := by
  induction n generalizing input st with
  | zero => exact ⟨st, rfl, by simp [expected_messages, loop_ops]⟩
  | succ n ih =>
    have hl := lines_extract input
    have hg := getline_good input st.message
    have hLne : String.mk (extract input).1 ≠ "exit" := by
      intro h
      apply hno
      rw [hl, h]
      exact List.mem_cons_self _ _
    have hmsg : (after_read st).message = String.mk (extract input).1 := by
      simp [after_read, hcin, hg]
    rw [send_loop_succ, if_neg (by rw [hmsg]; exact hLne), iteration_state, hmsg]
    rcases hx : (extract input).2 with _ | rest
    · rw [hx] at hl hg
      simp only at hl hg
      obtain ⟨st1, g1, g2⟩ := send_loop_eof env con n
        { st with
            trace := st.trace ++ iteration_ops env con st.n_sends (String.mk (extract input).1),
            cin := (getline st.cin st.message).1,
            message := (getline st.cin st.message).2,
            n_sends := st.n_sends + 1 }
        (by simp [hcin, hg, istream.good]) (by simpa [hcin, hg] using hLne)
      refine ⟨st1, g1, ?_⟩
      rw [g2, hl, expected_messages_single]
      simp [hcin, hg, loop_ops]
    · rw [hx] at hl hg
      simp only at hl hg
      obtain ⟨st1, g1, g2⟩ := ih rest
        { st with
            trace := st.trace ++ iteration_ops env con st.n_sends (String.mk (extract input).1),
            cin := (getline st.cin st.message).1,
            message := (getline st.cin st.message).2,
            n_sends := st.n_sends + 1 }
        (by simp [hcin, hg])
        (by
          intro h
          apply hno
          rw [hl]
          exact List.mem_cons_of_mem _ h)
      refine ⟨st1, g1, ?_⟩
      rw [g2, hl, expected_messages_cons _ _ _ (lines_ne_nil rest)]
      simp [loop_ops]

theorem after_read_trace (st : State) :
    (after_read st).trace = st.trace ++ [Op.cout prompt_text, Op.getline] := by
  simp [after_read]

/-- Shape of what the send loop does, whatever the input: only sending operations,
the first of them the prompt; the flag, the handlers and the load counter are not
touched. -/
theorem send_loop_shape (env : Env) (con : connection_ptr) (fuel : Nat) (st : State) :
    (send_loop env con fuel st).state.connected = st.connected ∧
    (send_loop env con fuel st).state.handlers = st.handlers ∧
    (send_loop env con fuel st).state.n_loads = st.n_loads ∧
    ∃ w, (send_loop env con fuel st).state.trace = st.trace ++ w ∧
      (∀ op ∈ w, sending_op con op) ∧
      (0 < fuel → ∃ w1, w = Op.cout prompt_text :: Op.getline :: w1) := by
  induction fuel generalizing st with
  | zero => exact ⟨rfl, rfl, rfl, [], by simp [send_loop_zero, Loop.state], by simp, by simp⟩
  | succ fuel ih =>
    rw [send_loop_succ]
    by_cases hm : (after_read st).message = "exit"
    · rw [if_pos hm]
      refine ⟨rfl, rfl, rfl, [Op.cout prompt_text, Op.getline], after_read_trace st, ?_,
        fun _ => ⟨_, rfl⟩⟩
      intro op hop
      simp only [List.mem_cons, List.mem_singleton, List.not_mem_nil, or_false] at hop
      rcases hop with h | h
      · exact Or.inl ⟨_, h⟩
      · exact Or.inr (Or.inl h)
    · rw [if_neg hm, iteration_state]
      obtain ⟨i1, i2, i3, w, i4, i5, _⟩ := ih
        { st with
            trace := st.trace ++ iteration_ops env con st.n_sends (after_read st).message,
            cin := (getline st.cin st.message).1,
            message := (getline st.cin st.message).2,
            n_sends := st.n_sends + 1 }
      refine ⟨i1, i2, i3, iteration_ops env con st.n_sends (after_read st).message ++ w,
        by rw [i4, List.append_assoc], ?_, fun _ => ⟨_, by simp [iteration_ops]; rfl⟩⟩
      intro op hop
      rcases List.mem_append.1 hop with h | h
      · simp only [iteration_ops, List.mem_append, List.mem_cons, List.mem_singleton,
          List.not_mem_nil, or_false] at h
        rcases h with (h | h | h) | h
        · exact Or.inl ⟨_, h⟩
        · exact Or.inr (Or.inl h)
        · exact Or.inr (Or.inr ⟨_, h⟩)
        · cases hec : env.send_ec st.n_sends with
          | none => rw [hec] at h; simp [send_log] at h
          | some msg =>
            rw [hec] at h
            simp only [send_log, List.mem_singleton] at h
            exact Or.inl ⟨_, h⟩
      · exact i5 op h

/-- The send loop reads and sends the same lines whatever error codes the sends
report: runs under two environments from states that agree on the console end the
same way and agree on the console again. -/
theorem send_loop_same_console (env env2 : Env) (con : connection_ptr) (fuel : Nat)
    (a b : State) (h : same_console a b) :
    (∃ a1 b1, send_loop env con fuel a = Loop.exited a1 ∧
        send_loop env2 con fuel b = Loop.exited b1 ∧ same_console a1 b1) ∨
    (∃ a1 b1, send_loop env con fuel a = Loop.spinning a1 ∧
        send_loop env2 con fuel b = Loop.spinning b1 ∧ same_console a1 b1) := by
  induction fuel generalizing a b with
  | zero => exact Or.inr ⟨a, b, rfl, rfl, h⟩
  | succ fuel ih =>
    obtain ⟨h1, h2, h3⟩ := h
    have hr : same_console (after_read a) (after_read b) := by
      refine ⟨by simp [after_read, h1, h2], by simp [after_read, h1, h2], ?_⟩
      rw [after_read_trace, after_read_trace, sends_append, sends_append, h3]
    have hm : (after_read a).message = (after_read b).message := hr.2.1
    rw [send_loop_succ, send_loop_succ, ← hm]
    by_cases hx : (after_read a).message = "exit"
    · rw [if_pos hx, if_pos hx]
      exact Or.inl ⟨_, _, rfl, rfl, hr⟩
    · rw [if_neg hx, if_neg hx]
      apply ih
      rw [send_message_impl_eq, send_message_impl_eq]
      refine ⟨hr.1, hr.2.1, ?_⟩
      simp only [sends_append, sends_send_log, hr.2.2, sends]

/-- The iteration that reads "exit" leaves the loop after the prompt and the read,
with the rest of the input unread. -/
theorem send_loop_exit (env : Env) (con : connection_ptr) (k : Nat) (st : State)
    (input : List Char) (post : List String)
    (hcin : st.cin = { buf := input, eofbit := false, failbit := false })
    (hl : lines input = "exit" :: post) :
    send_loop env con (k + 1) st = Loop.exited (after_read st) ∧
    (after_read st).message = "exit" ∧
    (post ≠ [] → (after_read st).cin.good = true ∧ lines (after_read st).cin.buf = post) ∧
    (post = [] → (after_read st).cin.buf = []) := by
  rw [lines_extract] at hl
  simp only [List.cons.injEq] at hl
  obtain ⟨hL, htl⟩ := hl
  have hg := getline_good input st.message
  have hmsg : (after_read st).message = "exit" := by
    simp [after_read, hcin, hg, hL]
  refine ⟨by rw [send_loop_succ, if_pos hmsg], hmsg, ?_, ?_⟩
  · intro hne
    rcases hx : (extract input).2 with _ | rest
    · rw [hx] at htl; exact absurd htl.symm hne
    · rw [hx] at htl hg
      simp only at htl hg
      simp [after_read, hcin, hg, istream.good, htl]
  · intro he
    rcases hx : (extract input).2 with _ | rest
    · rw [hx] at hg
      simp only at hg
      simp [after_read, hcin, hg]
    · rw [hx] at htl
      simp only at htl
      exact absurd (htl.trans he) (lines_ne_nil rest)

/-- On an input whose first "exit" line comes after the lines `pre`, the loop
performs one full iteration per line of `pre`, then reads "exit" and leaves. -/
theorem send_loop_until_exit (env : Env) (con : connection_ptr) (fuel : Nat) (st : State)
    (input : List Char) (pre post : List String)
    (hcin : st.cin = { buf := input, eofbit := false, failbit := false })
    (hl : lines input = pre ++ "exit" :: post) (hpre : "exit" ∉ pre)
    (hf : pre.length < fuel) :
    ∃ st1, send_loop env con fuel st = Loop.exited st1 ∧
      st1.trace = st.trace ++ loop_ops env con st.n_sends pre ++
        [Op.cout prompt_text, Op.getline] ∧
      st1.message = "exit" ∧ st1.n_sends = st.n_sends + pre.length ∧
      (post ≠ [] → st1.cin.good = true ∧ lines st1.cin.buf = post) ∧
      (post = [] → st1.cin.buf = []) := by
  obtain ⟨k, rfl⟩ : ∃ k, fuel = pre.length + (k + 1) := ⟨fuel - pre.length - 1, by omega⟩
  obtain ⟨st1, g1, g2, g3, g4, g5, g6⟩ :=
    send_loop_lines env con pre input ("exit" :: post) st hcin hl (by simp) hpre
  have hcin1 : st1.cin = { buf := st1.cin.buf, eofbit := false, failbit := false } := by
    rcases hc : st1.cin with ⟨b, e, f⟩
    rw [hc] at g2 g3
    simp only at g2 g3
    simp [g2, g3]
  obtain ⟨e1, e2, e3, e4⟩ := send_loop_exit env con k st1 st1.cin.buf post hcin1 g4
  refine ⟨after_read st1, by rw [g1 (k + 1), e1], ?_, e2, ?_, e3, e4⟩
  · rw [after_read_trace, g5]
  · simp [after_read, g6]

theorem shutdown_eq (env : Env) (con : connection_ptr) (st : State) :
    shutdown env con st =
      { st with trace := st.trace ++
          [Op.close (get_handle con) close_status.normal "Client exit"] ++
          close_log env.close_ec ++ [Op.stop_perpetual, Op.join] } := by
  unfold shutdown close_log stop_perpetual_impl
  cases env.close_ec <;> simp [State.emit]

/-- `main` on a run on which connection resolution succeeded. -/
theorem main_resolved (env : Env) (fuel : Nat) (con : connection_ptr)
    (h : env.get_connection uri = (con, none)) :
    main env fuel =
      match wait_loop env fuel (started env con) with
      | .spinning st => Outcome.running st
      | .exited st =>
        match send_loop env con fuel { st with message := "" } with
        | .spinning st => Outcome.running st
        | .exited st => Outcome.returned 0 (shutdown env con st) := by
  simp [main, connect_impl, h, started, startup_ops, launch, setup_handlers_impl, initial,
    State.emit, start_perpetual_impl, run_impl]

/-- `main` on a run on which connection resolution failed. -/
theorem main_failed (env : Env) (fuel : Nat) (con : connection_ptr) (msg : String)
    (h : env.get_connection uri = (con, some msg)) :
    main env fuel = Outcome.returned (-1)
      { trace := [Op.init_asio, Op.set_open_handler, Op.set_message_handler,
          Op.set_close_handler, Op.set_fail_handler, Op.get_connection uri,
          Op.cout ("Connection error: " ++ msg ++ endl)],
        connected := false,
        handlers := { open_handler := true, message_handler := true,
                      close_handler := true, fail_handler := true },
        cin := { buf := env.stdin, eofbit := false, failbit := false },
        message := "", n_loads := 0, n_sends := 0 } := by
  simp [main, connect_impl, h, setup_handlers_impl, initial, State.emit]

theorem waiting_op_not_shutdown (op : Op) (h : waiting_op op) : ¬ shutdown_op op := by
  rintro (⟨hdl, status, reason, rfl⟩ | rfl | rfl) <;>
    rcases h with ⟨s, h, _⟩ | h | h <;> cases h

theorem sending_op_not_shutdown (con : connection_ptr) (op : Op) (h : sending_op con op) :
    ¬ shutdown_op op := by
  rintro (⟨hdl, status, reason, rfl⟩ | rfl | rfl) <;>
    rcases h with ⟨s, h⟩ | h | ⟨p, h⟩ <;> cases h

theorem startup_op_not_shutdown (con : connection_ptr) (op : Op) (h : op ∈ startup_ops con) :
    ¬ shutdown_op op := by
  simp only [startup_ops, List.mem_cons, List.mem_singleton, List.not_mem_nil, or_false] at h
  rintro (⟨hdl, status, reason, rfl⟩ | rfl | rfl) <;> simp at h

theorem waiting_op_quiet (op : Op) (h : waiting_op op) :
    op ≠ Op.cout prompt_text ∧ (∀ hdl payload o, op ≠ Op.send hdl payload o) ∧
      op ≠ Op.load_connected true := by
  rcases h with ⟨s, rfl, hs⟩ | rfl | rfl
  · refine ⟨?_, by simp, by simp⟩
    intro h
    exact handler_text_ne_prompt s hs (Op.cout.inj h)
  · simp
  · simp

theorem sends_waiting (w : List Op) (h : ∀ op ∈ w, waiting_op op) : sends w = [] := by
  induction w with
  | nil => rfl
  | cons op w ih =>
    have h1 := (waiting_op_quiet op (h op (List.mem_cons_self _ _))).2.1
    have h2 := ih (fun o ho => h o (List.mem_cons_of_mem _ ho))
    cases op <;> simp_all [sends]

theorem sends_close_log (ec : error_code) : sends (close_log ec) = [] := by
  cases ec <;> rfl

theorem send_loop_exited_message (env : Env) (con : connection_ptr) (fuel : Nat) (st st1 : State)
    (h : send_loop env con fuel st = Loop.exited st1) : st1.message = "exit" := by
  induction fuel generalizing st with
  | zero => simp [send_loop_zero] at h
  | succ fuel ih =>
    rw [send_loop_succ] at h
    by_cases hm : (after_read st).message = "exit"
    · rw [if_pos hm] at h
      simp only [Loop.exited.injEq] at h
      rw [← h]; exact hm
    · rw [if_neg hm] at h
      exact ih _ h

/-- A run on which resolution succeeds, an open event is delivered and the input has
an "exit" line returns 0 once the bound on the loops is large enough; the frames it
sent are the lines before the first "exit". -/
theorem main_returns (env : Env) (fuel : Nat) (con : connection_ptr) (d : Nat)
    (pre post : List String) (hres : env.get_connection uri = (con, none))
    (hopen : Event.on_open ∈ env.delivered d)
    (hl : lines env.stdin = pre ++ "exit" :: post) (hpre : "exit" ∉ pre)
    (hd : d < fuel) (hf : pre.length < fuel) :
    ∃ st, main env fuel = Outcome.returned 0 st ∧
      sends st.trace = pre.map (fun L => (get_handle con, L, opcode.text)) := by
  obtain ⟨st1, hw⟩ := wait_loop_exits env d (started env con) rfl
    (by simpa [started] using hopen) fuel hd
  obtain ⟨c1, _, c3, _, c5, _⟩ := wait_loop_spec env fuel (started env con)
  rw [hw] at c1 c3
  simp only [Loop.state] at c1 c3
  obtain ⟨_, w, hw1, hw2⟩ := c5 st1 hw
  obtain ⟨st2, hs, t1, _, _, _, _⟩ := send_loop_until_exit env con fuel
    { st1 with message := "" } env.stdin pre post (by simp [c1, started]) hl hpre hf
  refine ⟨shutdown env con st2, by rw [main_resolved env fuel con hres, hw]; simp only [hs], ?_⟩
  rw [shutdown_eq]
  simp only [t1, hw1, sends_append, sends_loop_ops, sends_waiting w hw2, sends_close_log]
  simp [sends, started, startup_ops]

theorem fresh_of_bits (cin : istream) (h1 : cin.eofbit = false) (h2 : cin.failbit = false) :
    cin = { buf := cin.buf, eofbit := false, failbit := false } := by
  rcases cin with ⟨b, e, f⟩
  simp only at h1 h2
  simp [h1, h2]

theorem reads_append (a b : List Op) : reads (a ++ b) = reads a + reads b := by
  induction a with
  | nil => simp [reads]
  | cons op a ih =>
    cases op with
    | getline => simp [reads, ih]; omega
    | _ => simp [reads, ih]

theorem reads_send_log (ec : error_code) : reads (send_log ec) = 0 := by
  cases ec <;> rfl

theorem reads_loop_ops (env : Env) (con : connection_ptr) (k : Nat) (Ls : List String) :
    reads (loop_ops env con k Ls) = Ls.length := by
  induction Ls generalizing k with
  | nil => rfl
  | cons L Ls ih =>
    simp [loop_ops, iteration_ops, reads_append, reads, reads_send_log, ih]

theorem expected_messages_length (ls : List String) (n : Nat) :
    (expected_messages ls n).length = n := by
  simp [expected_messages]

/-- On a run on which resolution succeeds and the input has no "exit" line, `main`
has not returned, whatever the bound on the loops. -/
theorem main_never_returns (env : Env) (fuel : Nat) (con : connection_ptr)
    (hres : env.get_connection uri = (con, none)) (hno : "exit" ∉ lines env.stdin) :
    ∃ st, main env fuel = Outcome.running st := by
  obtain ⟨c1, _⟩ := wait_loop_spec env fuel (started env con)
  cases hw : wait_loop env fuel (started env con) with
  | spinning st1 => exact ⟨st1, by rw [main_resolved env fuel con hres, hw]⟩
  | exited st1 =>
    rw [hw] at c1
    simp only [Loop.state] at c1
    obtain ⟨st2, h, _⟩ := send_loop_no_exit env con fuel env.stdin { st1 with message := "" }
      (by simp [c1, started]) hno
    exact ⟨st2, by rw [main_resolved env fuel con hres, hw]; simp only [h]⟩

/-- The iteration that reads a line other than "exit" from a good stream. -/
theorem iteration_line (env : Env) (con : connection_ptr) (st : State) (input : List Char)
    (L : String) (tail : List String)
    (hcin : st.cin = { buf := input, eofbit := false, failbit := false })
    (hl : lines input = L :: tail) (hL : L ≠ "exit") (k : Nat) :
    send_loop env con (k + 1) st = send_loop env con k
      { st with
          trace := st.trace ++ iteration_ops env con st.n_sends L,
          cin := (getline st.cin st.message).1,
          message := (getline st.cin st.message).2,
          n_sends := st.n_sends + 1 } := by
  rw [lines_extract] at hl
  simp only [List.cons.injEq] at hl
  have hmsg : (after_read st).message = L := by
    simp [after_read, hcin, getline_good, hl.1]
  rw [send_loop_succ, if_neg (by rw [hmsg]; exact hL), iteration_state, hmsg]

/-- C1: every line read by the send loop that is not "exit" is sent exactly once, as
a text frame on the handle of the connection, in the iteration that reads it, and
the loop then prompts again; so on an input with an "exit" line the frames sent are
the lines before the first "exit", in order (for the loop alone and for `main`). -/
theorem send_loop_forwards_lines :
    (∀ (env : Env) (con : connection_ptr) (st : State) (input : List Char)
      (pre : List String) (L : String) (tail : List String),
      st.cin = { buf := input, eofbit := false, failbit := false } →
      lines input = pre ++ L :: tail → "exit" ∉ pre → L ≠ "exit" →
      ∃ st2, (∀ k, send_loop env con (pre.length + (k + 1)) st = send_loop env con k st2) ∧
        st2.trace = st.trace ++ loop_ops env con st.n_sends pre ++
          [Op.cout prompt_text, Op.getline, Op.send (get_handle con) L opcode.text] ++
          send_log (env.send_ec (st.n_sends + pre.length)) ∧
        (∀ k, ∃ w, (send_loop env con (k + 1) st2).state.trace =
          st2.trace ++ Op.cout prompt_text :: w)) ∧
    (∀ (env : Env) (con : connection_ptr) (st : State) (input : List Char)
      (pre post : List String) (fuel : Nat),
      st.cin = { buf := input, eofbit := false, failbit := false } →
      lines input = pre ++ "exit" :: post → "exit" ∉ pre → pre.length < fuel →
      ∃ st1, send_loop env con fuel st = Loop.exited st1 ∧
        sends st1.trace =
          sends st.trace ++ pre.map (fun L => (get_handle con, L, opcode.text))) ∧
    (∀ (env : Env) (fuel : Nat) (con : connection_ptr) (d : Nat) (pre post : List String),
      env.get_connection uri = (con, none) → Event.on_open ∈ env.delivered d →
      lines env.stdin = pre ++ "exit" :: post → "exit" ∉ pre → d < fuel → pre.length < fuel →
      ∃ st, main env fuel = Outcome.returned 0 st ∧
        sends st.trace = pre.map (fun L => (get_handle con, L, opcode.text))) := by
  refine ⟨?_, ?_, ?_⟩
  · intro env con st input pre L tail hcin hl hpre hL
    obtain ⟨st1, g1, g2, g3, g4, g5, g6⟩ :=
      send_loop_lines env con pre input (L :: tail) st hcin hl (by simp) hpre
    have hstep := iteration_line env con st1 st1.cin.buf L tail (fresh_of_bits _ g2 g3) g4 hL
    refine ⟨_, fun k => by rw [g1 (k + 1), hstep k], ?_, ?_⟩
    · simp [g5, g6, iteration_ops]
    · intro k
      obtain ⟨_, _, _, w, h1, _, h3⟩ := send_loop_shape env con (k + 1)
        { st1 with
            trace := st1.trace ++ iteration_ops env con st1.n_sends L,
            cin := (getline st1.cin st1.message).1,
            message := (getline st1.cin st1.message).2,
            n_sends := st1.n_sends + 1 }
      obtain ⟨w1, rfl⟩ := h3 (Nat.succ_pos k)
      exact ⟨Op.getline :: w1, h1⟩
  · intro env con st input pre post fuel hcin hl hpre hf
    obtain ⟨st1, h1, h2, _⟩ :=
      send_loop_until_exit env con fuel st input pre post hcin hl hpre hf
    refine ⟨st1, h1, ?_⟩
    rw [h2]
    simp [sends_append, sends_loop_ops, sends]
  · intro env fuel con d pre post hres hopen hl hpre hd hf
    exact main_returns env fuel con d pre post hres hopen hl hpre hd hf

/-- Instance of C1 on `demo_env`: the empty line and the three near-misses are sent,
the loop leaves at "exit", "later" is not sent. -/
theorem send_loop_forwards_lines_witness :
    lines demo_env.stdin = ["", "Exit", " exit", "exit "] ++ "exit" :: ["later", ""] ∧
    lines demo_env.stdin = ["", "Exit"] ++ " exit" :: ["exit ", "exit", "later", ""] ∧
    "exit" ∉ ["", "Exit", " exit", "exit "] ∧ "exit" ∉ ["", "Exit"] ∧ " exit" ≠ "exit" ∧
    (∃ st2,
      (∀ k, send_loop demo_env 7 (["", "Exit"].length + (k + 1)) (started demo_env 7) =
        send_loop demo_env 7 k st2) ∧
      st2.trace = (started demo_env 7).trace ++
        loop_ops demo_env 7 (started demo_env 7).n_sends ["", "Exit"] ++
        [Op.cout prompt_text, Op.getline, Op.send (get_handle 7) " exit" opcode.text] ++
        send_log (demo_env.send_ec ((started demo_env 7).n_sends + ["", "Exit"].length)) ∧
      (∀ k, ∃ w, (send_loop demo_env 7 (k + 1) st2).state.trace =
        st2.trace ++ Op.cout prompt_text :: w)) ∧
    (∃ st1, send_loop demo_env 7 6 (started demo_env 7) = Loop.exited st1 ∧
      sends st1.trace = sends (started demo_env 7).trace ++
        ["", "Exit", " exit", "exit "].map (fun L => (get_handle 7, L, opcode.text))) ∧
    (∃ st, main demo_env 5 = Outcome.returned 0 st ∧
      sends st.trace =
        ["", "Exit", " exit", "exit "].map (fun L => (get_handle 7, L, opcode.text))) :=
  ⟨by decide, by decide, by decide, by decide, by decide,
    send_loop_forwards_lines.1 demo_env 7 (started demo_env 7) demo_env.stdin ["", "Exit"]
      " exit" ["exit ", "exit", "later", ""] rfl (by decide) (by decide) (by decide),
    send_loop_forwards_lines.2.1 demo_env 7 (started demo_env 7) demo_env.stdin
      ["", "Exit", " exit", "exit "] ["later", ""] 6 rfl (by decide) (by decide) (by decide),
    send_loop_forwards_lines.2.2 demo_env 5 7 2 ["", "Exit", " exit", "exit "] ["later", ""]
      rfl (by decide) (by decide) (by decide) (by decide) (by decide)⟩

/-- C2: when the loop reads the first "exit" line it leaves right after the prompt
and the read, without a send for that line; the lines after it stay unread on the
stream and the only frames sent are the lines before it. -/
theorem send_loop_stops_at_exit (env : Env) (con : connection_ptr) (st : State)
    (input : List Char) (pre post : List String) (fuel : Nat)
    (hcin : st.cin = { buf := input, eofbit := false, failbit := false })
    (hl : lines input = pre ++ "exit" :: post) (hpre : "exit" ∉ pre)
    (hf : pre.length < fuel) :
    ∃ st1, send_loop env con fuel st = Loop.exited st1 ∧
      st1.trace = st.trace ++ loop_ops env con st.n_sends pre ++
        [Op.cout prompt_text, Op.getline] ∧
      sends st1.trace = sends st.trace ++ pre.map (fun L => (get_handle con, L, opcode.text)) ∧
      reads st1.trace = reads st.trace + pre.length + 1 ∧
      st1.n_sends = st.n_sends + pre.length ∧
      (post ≠ [] → st1.cin.good = true ∧ lines st1.cin.buf = post) ∧
      (post = [] → st1.cin.buf = []) := by
  obtain ⟨st1, h1, h2, _, h4, h5, h6⟩ :=
    send_loop_until_exit env con fuel st input pre post hcin hl hpre hf
  refine ⟨st1, h1, h2, ?_, ?_, h4, h5, h6⟩
  · rw [h2]; simp [sends_append, sends_loop_ops, sends]
  · rw [h2]; simp [reads_append, reads_loop_ops, reads]; omega

/-- Instance of C2 on the input of `demo_env`. -/
theorem send_loop_stops_at_exit_witness :
    lines demo_env.stdin = ["", "Exit", " exit", "exit "] ++ "exit" :: ["later", ""] ∧
    "exit" ∉ ["", "Exit", " exit", "exit "] ∧
    (∃ st1, send_loop demo_env 7 9 (started demo_env 7) = Loop.exited st1 ∧
      st1.trace = (started demo_env 7).trace ++
        loop_ops demo_env 7 (started demo_env 7).n_sends ["", "Exit", " exit", "exit "] ++
        [Op.cout prompt_text, Op.getline] ∧
      sends st1.trace = sends (started demo_env 7).trace ++
        ["", "Exit", " exit", "exit "].map (fun L => (get_handle 7, L, opcode.text)) ∧
      reads st1.trace =
        reads (started demo_env 7).trace + ["", "Exit", " exit", "exit "].length + 1 ∧
      st1.n_sends = (started demo_env 7).n_sends + ["", "Exit", " exit", "exit "].length ∧
      (["later", ""] ≠ [] → st1.cin.good = true ∧ lines st1.cin.buf = ["later", ""]) ∧
      (["later", ""] = [] → st1.cin.buf = [])) :=
  ⟨by decide, by decide,
    send_loop_stops_at_exit demo_env 7 (started demo_env 7) demo_env.stdin
      ["", "Exit", " exit", "exit "] ["later", ""] 9 rfl (by decide) (by decide) (by decide)⟩

/-- C10: on an input with no "exit" line the send loop is still running after any
number `n` of iterations and has sent one frame in each: the lines of the input in
order and then, the input being at its end, the last message again and again.  The
loop is left only with `message` equal to "exit", and `main` on such an input has
not returned whatever the bound on its loops. -/
theorem send_loop_never_ends (env : Env) (con : connection_ptr) (n : Nat) (input : List Char)
    (st : State) (hcin : st.cin = { buf := input, eofbit := false, failbit := false })
    (hno : "exit" ∉ lines input) :
    (∃ st1, send_loop env con n st = Loop.spinning st1 ∧
      st1.trace = st.trace ++
        loop_ops env con st.n_sends (expected_messages (lines input) n) ∧
      sends st1.trace = sends st.trace ++
        (expected_messages (lines input) n).map (fun L => (get_handle con, L, opcode.text)) ∧
      (expected_messages (lines input) n).length = n) ∧
    (∀ fuel st0 st1, send_loop env con fuel st0 = Loop.exited st1 → st1.message = "exit") ∧
    (∀ fuel c, env.get_connection uri = (c, none) → "exit" ∉ lines env.stdin →
      ∃ s, main env fuel = Outcome.running s) := by
  obtain ⟨st1, h1, h2⟩ := send_loop_no_exit env con n input st hcin hno
  refine ⟨⟨st1, h1, h2, ?_, expected_messages_length _ _⟩, ?_, ?_⟩
  · rw [h2, sends_append, sends_loop_ops]
  · intro fuel st0 st1 h
    exact send_loop_exited_message env con fuel st0 st1 h
  · intro fuel c hres hno2
    exact main_never_returns env fuel c hres hno2

/-- Instance of C10 on the input of `eof_env`, which ends after "b": five iterations
send "a", "b", "b", "b", "b". -/
theorem send_loop_never_ends_witness :
    "exit" ∉ lines eof_env.stdin ∧
    expected_messages (lines eof_env.stdin) 5 = ["a", "b", "b", "b", "b"] ∧
    (∃ st1, send_loop eof_env 7 5 (started eof_env 7) = Loop.spinning st1 ∧
      st1.trace = (started eof_env 7).trace ++
        loop_ops eof_env 7 (started eof_env 7).n_sends
          (expected_messages (lines eof_env.stdin) 5) ∧
      sends st1.trace = sends (started eof_env 7).trace ++
        (expected_messages (lines eof_env.stdin) 5).map
          (fun L => (get_handle 7, L, opcode.text)) ∧
      (expected_messages (lines eof_env.stdin) 5).length = 5) ∧
    (∃ s, main eof_env 9 = Outcome.running s) :=
  ⟨by decide, by decide,
    (send_loop_never_ends eof_env 7 5 eof_env.stdin (started eof_env 7) rfl (by decide)).1,
    (send_loop_never_ends eof_env 7 5 eof_env.stdin (started eof_env 7) rfl
      (by decide)).2.2 9 7 rfl (by decide)⟩

theorem sending_op_no_wait (con : connection_ptr) (op : Op) (h : sending_op con op) :
    (∀ ms, op ≠ Op.sleep_for ms) ∧ (∀ v, op ≠ Op.load_connected v) := by
  rcases h with ⟨s, rfl⟩ | rfl | ⟨p, rfl⟩ <;> simp

theorem close_log_no_wait (ec : error_code) (op : Op) (h : op ∈ close_log ec) :
    (∀ ms, op ≠ Op.sleep_for ms) ∧ (∀ v, op ≠ Op.load_connected v) := by
  cases ec with
  | none => simp [close_log] at h
  | some msg =>
    simp only [close_log, List.mem_singleton] at h
    subst h; simp

/-- C3: when connection resolution reports an error, `main` writes
"Connection error: <message>" and returns -1, having done nothing but initialise
the client, register the handlers and call `get_connection`: no `connect`, no
`start_perpetual`, no thread, no `run`, no send, no close, no `stop_perpetual`. -/
theorem main_resolution_error (env : Env) (fuel : Nat) (con : connection_ptr) (msg : String)
    (h : env.get_connection uri = (con, some msg)) :
    ∃ st, main env fuel = Outcome.returned (-1) st ∧
      st.trace = [Op.init_asio, Op.set_open_handler, Op.set_message_handler,
        Op.set_close_handler, Op.set_fail_handler, Op.get_connection uri,
        Op.cout ("Connection error: " ++ msg ++ endl)] ∧
      Op.start_perpetual ∉ st.trace ∧ Op.thread_spawn ∉ st.trace ∧ Op.run ∉ st.trace ∧
      Op.stop_perpetual ∉ st.trace ∧ Op.join ∉ st.trace ∧
      (∀ c, Op.connect c ∉ st.trace) ∧
      (∀ hdl payload o, Op.send hdl payload o ∉ st.trace) ∧
      (∀ hdl status reason, Op.close hdl status reason ∉ st.trace) := by
  refine ⟨_, main_failed env fuel con msg h, rfl, ?_, ?_, ?_, ?_, ?_, ?_, ?_, ?_⟩ <;> simp

/-- Instance of C3 on `failing_env`. -/
theorem main_resolution_error_witness :
    failing_env.get_connection uri = (0, some "invalid uri") ∧
    (∃ st, main failing_env 4 = Outcome.returned (-1) st ∧
      st.trace = [Op.init_asio, Op.set_open_handler, Op.set_message_handler,
        Op.set_close_handler, Op.set_fail_handler, Op.get_connection uri,
        Op.cout ("Connection error: " ++ "invalid uri" ++ endl)] ∧
      Op.start_perpetual ∉ st.trace ∧ Op.thread_spawn ∉ st.trace ∧ Op.run ∉ st.trace ∧
      Op.stop_perpetual ∉ st.trace ∧ Op.join ∉ st.trace ∧
      (∀ c, Op.connect c ∉ st.trace) ∧
      (∀ hdl payload o, Op.send hdl payload o ∉ st.trace) ∧
      (∀ hdl status reason, Op.close hdl status reason ∉ st.trace)) :=
  ⟨rfl, main_resolution_error failing_env 4 0 "invalid uri" rfl⟩

/-- C4: on a run on which the send loop exits, `main` goes on with the shutdown
sequence and returns: one `close` on the handle of the connection with status
normal and reason "Client exit", then (only if `close` reported an error) the line
"Close error: <message>", then one `stop_perpetual`, then one `join`; none of these
three operations occurs earlier in the run. -/
theorem shutdown_sequence (env : Env) (fuel : Nat) (con : connection_ptr) (st1 st2 : State)
    (hres : env.get_connection uri = (con, none))
    (hw : wait_loop env fuel (started env con) = Loop.exited st1)
    (hs : send_loop env con fuel { st1 with message := "" } = Loop.exited st2) :
    main env fuel = Outcome.returned 0 (shutdown env con st2) ∧
    (shutdown env con st2).trace = st2.trace ++
      [Op.close (get_handle con) close_status.normal "Client exit"] ++
      (match env.close_ec with
       | some msg => [Op.cout ("Close error: " ++ msg ++ endl)]
       | none => []) ++
      [Op.stop_perpetual, Op.join] ∧
    (∀ op ∈ st2.trace, ¬ shutdown_op op) := by
  refine ⟨by rw [main_resolved env fuel con hres, hw]; simp only [hs], ?_, ?_⟩
  · rw [shutdown_eq]; rfl
  · obtain ⟨_, _, _, _, c5, _⟩ := wait_loop_spec env fuel (started env con)
    obtain ⟨_, w, hw1, hw2⟩ := c5 st1 hw
    obtain ⟨_, _, _, v, hv1, hv2, _⟩ := send_loop_shape env con fuel { st1 with message := "" }
    rw [hs] at hv1
    simp only [Loop.state] at hv1
    intro op hop
    rw [hv1, hw1] at hop
    simp only [List.mem_append, List.mem_singleton] at hop
    rcases hop with ((h | h) | h) | h
    · exact startup_op_not_shutdown con op h
    · exact waiting_op_not_shutdown op (hw2 op h)
    · subst h
      rintro (⟨hdl, status, reason, h⟩ | h | h) <;> cases h
    · exact sending_op_not_shutdown con op (hv2 op h)

/-- Instance of C4 on `demo_env`, whose `close` reports an error. -/
theorem shutdown_sequence_witness :
    demo_env.get_connection uri = (7, none) ∧
    wait_loop demo_env 5 (started demo_env 7) =
      Loop.exited (wait_loop demo_env 5 (started demo_env 7)).state ∧
    (main demo_env 5).state.trace.drop 32 =
      [Op.close 7 close_status.normal "Client exit",
       Op.cout "Close error: invalid state\n", Op.stop_perpetual, Op.join] ∧
    main demo_env 5 = Outcome.returned 0 (shutdown demo_env 7
      (send_loop demo_env 7 5
        { (wait_loop demo_env 5 (started demo_env 7)).state with message := "" }).state) :=
  ⟨rfl, by decide, by decide,
    (shutdown_sequence demo_env 5 7 (wait_loop demo_env 5 (started demo_env 7)).state
      (send_loop demo_env 7 5
        { (wait_loop demo_env 5 (started demo_env 7)).state with message := "" }).state
      rfl (by decide) (by decide)).1⟩

/-- C5: `send_message_impl` issues the send and writes the single line
"Send error: <message>" exactly when the send reported an error; either way the
iteration ends there and the loop goes on with the next prompt and read, and the
loop reads and sends the same lines, and ends the same way, as on a run on which
every send succeeds. -/
theorem send_errors_not_fatal (env : Env) (con : connection_ptr) :
    (∀ message st msg, env.send_ec st.n_sends = some msg →
      send_message_impl env con message st =
        { st with
            trace := st.trace ++ [Op.send (get_handle con) message opcode.text,
              Op.cout ("Send error: " ++ msg ++ endl)],
            n_sends := st.n_sends + 1 }) ∧
    (∀ message st, env.send_ec st.n_sends = none →
      send_message_impl env con message st =
        { st with
            trace := st.trace ++ [Op.send (get_handle con) message opcode.text],
            n_sends := st.n_sends + 1 }) ∧
    (∀ fuel st, (after_read st).message ≠ "exit" →
      send_loop env con (fuel + 1) st = send_loop env con fuel
        (send_message_impl env con (after_read st).message (after_read st)) ∧
      ∃ w, (send_loop env con (fuel + 1)
          (send_message_impl env con (after_read st).message (after_read st))).state.trace =
        (send_message_impl env con (after_read st).message (after_read st)).trace ++
          Op.cout prompt_text :: Op.getline :: w) ∧
    (∀ fuel st,
      (send_loop env con fuel st).has_exited =
        (send_loop (without_send_errors env) con fuel st).has_exited ∧
      sends (send_loop env con fuel st).state.trace =
        sends (send_loop (without_send_errors env) con fuel st).state.trace ∧
      (send_loop env con fuel st).state.cin =
        (send_loop (without_send_errors env) con fuel st).state.cin) := by
  refine ⟨?_, ?_, ?_, ?_⟩
  · intro message st msg h
    rw [send_message_impl_eq, h]
    simp [send_log]
  · intro message st h
    rw [send_message_impl_eq, h]
    simp [send_log]
  · intro fuel st hm
    refine ⟨by rw [send_loop_succ, if_neg hm], ?_⟩
    obtain ⟨_, _, _, w, h1, _, h3⟩ := send_loop_shape env con (fuel + 1)
      (send_message_impl env con (after_read st).message (after_read st))
    obtain ⟨w1, rfl⟩ := h3 (Nat.succ_pos fuel)
    exact ⟨w1, h1⟩
  · intro fuel st
    rcases send_loop_same_console env (without_send_errors env) con fuel st st
        ⟨rfl, rfl, rfl⟩ with ⟨a1, b1, ha, hb, hc, _, hs⟩ | ⟨a1, b1, ha, hb, hc, _, hs⟩
    · rw [ha, hb]; exact ⟨rfl, hs, hc⟩
    · rw [ha, hb]; exact ⟨rfl, hs, hc⟩

/-- Instance of C5 on `demo_env`, whose second send reports an error. -/
theorem send_errors_not_fatal_witness :
    demo_env.send_ec (started demo_env 7).n_sends = none ∧
    demo_env.send_ec { started demo_env 7 with n_sends := 1 }.n_sends = some "invalid state" ∧
    send_message_impl demo_env 7 "Exit" { started demo_env 7 with n_sends := 1 } =
      { started demo_env 7 with
          trace := (started demo_env 7).trace ++ [Op.send (get_handle 7) "Exit" opcode.text,
            Op.cout ("Send error: " ++ "invalid state" ++ endl)],
          n_sends := 1 + 1 } ∧
    send_message_impl demo_env 7 "" (started demo_env 7) =
      { started demo_env 7 with
          trace := (started demo_env 7).trace ++ [Op.send (get_handle 7) "" opcode.text],
          n_sends := 0 + 1 } ∧
    (after_read (started demo_env 7)).message ≠ "exit" ∧
    send_loop demo_env 7 (4 + 1) (started demo_env 7) = send_loop demo_env 7 4
      (send_message_impl demo_env 7 (after_read (started demo_env 7)).message
        (after_read (started demo_env 7))) ∧
    sends (send_loop demo_env 7 5 (started demo_env 7)).state.trace =
      sends (send_loop (without_send_errors demo_env) 7 5 (started demo_env 7)).state.trace :=
  ⟨rfl, rfl,
    (send_errors_not_fatal demo_env 7).1 "Exit" { started demo_env 7 with n_sends := 1 }
      "invalid state" rfl,
    (send_errors_not_fatal demo_env 7).2.1 "" (started demo_env 7) rfl,
    by decide,
    ((send_errors_not_fatal demo_env 7).2.2.1 4 (started demo_env 7) (by decide)).1,
    ((send_errors_not_fatal demo_env 7).2.2.2 5 (started demo_env 7)).2.1⟩

/-- C7: the `connected` flag is false when `main` starts to wait; of the four
handlers only the open handler changes it, and it sets it to true, so after any
sequence of events delivered to the registered handlers the flag is true exactly
if it was true before or the sequence has an open event, and a true flag stays
true.  The send loop and the shutdown sequence leave it alone.  On a run to which
no open event is delivered (whatever fail, close and message events are) `main`
is still waiting after any number of loads, all of which yielded false. -/
theorem connected_flag_set_only_by_open_handler :
    (∀ env con, (initial env).connected = false ∧ (started env con).connected = false) ∧
    (∀ st evs, (deliver evs (setup_handlers_impl st)).connected = true ↔
      (st.connected = true ∨ Event.on_open ∈ evs)) ∧
    (∀ st evs, st.connected = true → (deliver evs st).connected = true) ∧
    (∀ st payload, (open_handler st).connected = true ∧
      (message_handler payload st).connected = st.connected ∧
      (close_handler st).connected = st.connected ∧
      (fail_handler st).connected = st.connected) ∧
    (∀ st ev, ev ≠ Event.on_open → (dispatch ev st).connected = st.connected) ∧
    (∀ env con fuel st, (send_loop env con fuel st).state.connected = st.connected ∧
      (shutdown env con st).connected = st.connected) ∧
    (∀ env fuel con, env.get_connection uri = (con, none) →
      (∀ k, k < fuel → Event.on_open ∉ env.delivered k) →
      ∃ st, main env fuel = Outcome.running st ∧ st.connected = false ∧
        st.n_loads = fuel ∧ Op.load_connected true ∉ st.trace ∧
        Op.cout prompt_text ∉ st.trace) := by
  refine ⟨fun _ _ => ⟨rfl, rfl⟩, ?_, ?_, ?_, ?_, ?_, ?_⟩
  · intro st evs
    rw [deliver_connected]
    simp [setup_handlers_impl]
  · intro st evs h
    rw [deliver_connected, h]; rfl
  · intro st payload
    exact ⟨rfl, rfl, rfl, rfl⟩
  · intro st ev hev
    rw [dispatch_connected]
    simp [hev]
  · intro env con fuel st
    exact ⟨(send_loop_shape env con fuel st).1, by rw [shutdown_eq]⟩
  · intro env fuel con hres hno
    obtain ⟨st1, h1, h2, h3⟩ := wait_loop_no_open env fuel (started env con) rfl
      (by intro k hk; simpa [started] using hno k hk)
    obtain ⟨_, _, _, _, _, c6⟩ := wait_loop_spec env fuel (started env con)
    obtain ⟨w, hw1, hw2⟩ := c6 st1 h1
    refine ⟨st1, by rw [main_resolved env fuel con hres, h1], h2,
      by simpa [started] using h3, ?_, ?_⟩
    · rw [hw1]
      intro hmem
      rcases List.mem_append.1 hmem with h | h
      · simp [started, startup_ops] at h
      · exact (waiting_op_quiet _ (hw2 _ h)).2.2 rfl
    · rw [hw1]
      intro hmem
      rcases List.mem_append.1 hmem with h | h
      · simp [started, startup_ops] at h
      · exact (waiting_op_quiet _ (hw2 _ h)).1 rfl

/-- Instance of C7 on `eof_env`, to which a fail event and message events are
delivered but no open event. -/
theorem connected_flag_set_only_by_open_handler_witness :
    eof_env.get_connection uri = (7, none) ∧
    (∀ k, k < 6 → Event.on_open ∉ eof_env.delivered k) ∧
    (∃ st, main eof_env 6 = Outcome.running st ∧ st.connected = false ∧
      st.n_loads = 6 ∧ Op.load_connected true ∉ st.trace ∧
      Op.cout prompt_text ∉ st.trace) ∧
    (open_handler (started eof_env 7)).connected = true ∧
    (deliver [Event.on_fail, Event.on_close] (open_handler (started eof_env 7))).connected =
      true ∧
    Event.on_fail ≠ Event.on_open ∧
    (dispatch Event.on_fail (started eof_env 7)).connected = (started eof_env 7).connected :=
  ⟨rfl, by decide,
    connected_flag_set_only_by_open_handler.2.2.2.2.2.2 eof_env 6 7 rfl (by decide),
    rfl,
    connected_flag_set_only_by_open_handler.2.2.1 (open_handler (started eof_env 7))
      [Event.on_fail, Event.on_close] rfl,
    by decide,
    connected_flag_set_only_by_open_handler.2.2.2.2.1 (started eof_env 7) Event.on_fail
      (by decide)⟩

/-- C8: on a run on which resolution succeeds the trace of `main` begins with
client initialisation, the four handler registrations, `get_connection`, `connect`,
`start_perpetual`, the creation of the thread and its call of `run`, in this order.
Then come waiting operations only (handler output, loads of the flag that yield
false, sleeps), none of which is a prompt or a send.  Whatever follows starts with
the load that yields true, followed at once by the first prompt of the send loop,
and has no further sleep or load of the flag. -/
theorem startup_order (env : Env) (fuel : Nat) (con : connection_ptr)
    (hres : env.get_connection uri = (con, none)) :
    ∃ w t, (main env fuel).state.trace =
        [Op.init_asio, Op.set_open_handler, Op.set_message_handler, Op.set_close_handler,
         Op.set_fail_handler, Op.get_connection uri, Op.connect con, Op.start_perpetual,
         Op.thread_spawn, Op.run] ++ w ++ t ∧
      (∀ op ∈ w, waiting_op op ∧ op ≠ Op.cout prompt_text ∧
        (∀ hdl payload o, op ≠ Op.send hdl payload o) ∧ op ≠ Op.load_connected true) ∧
      (t = [] ∨ ∃ t1, t = Op.load_connected true :: Op.cout prompt_text :: t1 ∧
        ∀ op ∈ t1, (∀ ms, op ≠ Op.sleep_for ms) ∧ (∀ v, op ≠ Op.load_connected v)) := by
  obtain ⟨_, _, _, _, c5, c6⟩ := wait_loop_spec env fuel (started env con)
  cases hw : wait_loop env fuel (started env con) with
  | spinning st1 =>
    obtain ⟨w, hw1, hw2⟩ := c6 st1 hw
    have hmain : main env fuel = Outcome.running st1 := by
      rw [main_resolved env fuel con hres, hw]
    exact ⟨w, [], by rw [hmain]; simp only [Outcome.state, hw1, List.append_nil]; rfl,
      fun op hop => ⟨hw2 op hop, waiting_op_quiet op (hw2 op hop)⟩, Or.inl rfl⟩
  | exited st1 =>
    obtain ⟨_, w, hw1, hw2⟩ := c5 st1 hw
    have hfuel : 0 < fuel := by
      cases fuel with
      | zero => simp [wait_loop_zero] at hw
      | succ n => exact Nat.succ_pos n
    obtain ⟨_, _, _, v, hv1, hv2, hv3⟩ :=
      send_loop_shape env con fuel { st1 with message := "" }
    obtain ⟨v1, rfl⟩ := hv3 hfuel
    have hv1m : ∀ op ∈ v1, (∀ ms, op ≠ Op.sleep_for ms) ∧ (∀ v, op ≠ Op.load_connected v) := by
      intro op hop
      exact sending_op_no_wait con op
        (hv2 op (List.mem_cons_of_mem _ (List.mem_cons_of_mem _ hop)))
    cases hs : send_loop env con fuel { st1 with message := "" } with
    | spinning st2 =>
      rw [hs] at hv1
      simp only [Loop.state] at hv1
      have hmain : main env fuel = Outcome.running st2 := by
        rw [main_resolved env fuel con hres, hw]; simp only [hs]
      refine ⟨w, Op.load_connected true :: Op.cout prompt_text :: Op.getline :: v1, ?_,
        fun op hop => ⟨hw2 op hop, waiting_op_quiet op (hw2 op hop)⟩, Or.inr ⟨_, rfl, ?_⟩⟩
      · rw [hmain]
        simp only [Outcome.state, hv1, hw1]
        simp [started, startup_ops]
      · intro op hop
        rcases List.mem_cons.1 hop with h | h
        · subst h; simp
        · exact hv1m op h
    | exited st2 =>
      rw [hs] at hv1
      simp only [Loop.state] at hv1
      have hmain : main env fuel = Outcome.returned 0 (shutdown env con st2) := by
        rw [main_resolved env fuel con hres, hw]; simp only [hs]
      refine ⟨w, Op.load_connected true :: Op.cout prompt_text :: (Op.getline :: v1 ++
          ([Op.close (get_handle con) close_status.normal "Client exit"] ++
            close_log env.close_ec ++ [Op.stop_perpetual, Op.join])), ?_,
        fun op hop => ⟨hw2 op hop, waiting_op_quiet op (hw2 op hop)⟩, Or.inr ⟨_, rfl, ?_⟩⟩
      · rw [hmain]
        simp only [Outcome.state, shutdown_eq, hv1, hw1]
        simp [started, startup_ops]
      · intro op hop
        rw [List.cons_append] at hop
        rcases List.mem_cons.1 hop with h | h
        · subst h; simp
        · rcases List.mem_append.1 h with h | h
          · exact hv1m op h
          · rcases List.mem_append.1 h with h | h
            · rcases List.mem_append.1 h with h | h
              · rw [List.mem_singleton] at h
                subst h; simp
              · exact close_log_no_wait env.close_ec op h
            · simp only [List.mem_cons, List.mem_singleton, List.not_mem_nil, or_false] at h
              rcases h with h | h <;> subst h <;> simp

/-- Instance of C8 on `demo_env`. -/
theorem startup_order_witness :
    demo_env.get_connection uri = (7, none) ∧
    (∃ w t, (main demo_env 5).state.trace =
        [Op.init_asio, Op.set_open_handler, Op.set_message_handler, Op.set_close_handler,
         Op.set_fail_handler, Op.get_connection uri, Op.connect 7, Op.start_perpetual,
         Op.thread_spawn, Op.run] ++ w ++ t ∧
      (∀ op ∈ w, waiting_op op ∧ op ≠ Op.cout prompt_text ∧
        (∀ hdl payload o, op ≠ Op.send hdl payload o) ∧ op ≠ Op.load_connected true) ∧
      (t = [] ∨ ∃ t1, t = Op.load_connected true :: Op.cout prompt_text :: t1 ∧
        ∀ op ∈ t1, (∀ ms, op ≠ Op.sleep_for ms) ∧ (∀ v, op ≠ Op.load_connected v))) ∧
    (main demo_env 5).state.trace.take 18 =
      [Op.init_asio, Op.set_open_handler, Op.set_message_handler, Op.set_close_handler,
       Op.set_fail_handler, Op.get_connection uri, Op.connect 7, Op.start_perpetual,
       Op.thread_spawn, Op.run, Op.load_connected false, Op.sleep_for 100,
       Op.load_connected false, Op.sleep_for 100, Op.cout "Connection failed\n",
       Op.cout "Connection opened\n", Op.load_connected true, Op.cout prompt_text] :=
  ⟨rfl, startup_order demo_env 5 7 rfl, by decide⟩

/-- C9: `main` returns -1 on every run on which connection resolution reports an
error; a run that returns returns -1 exactly if resolution reported an error and 0
otherwise; and a run on which resolution succeeds, an open event is delivered and
the input has an "exit" line does return 0 once the bound on the loops is large
enough, whatever error codes the sends and the close report. -/
theorem exit_status (env : Env) (fuel : Nat) :
    (∀ con msg, env.get_connection uri = (con, some msg) →
      ∃ st, main env fuel = Outcome.returned (-1) st) ∧
    (∀ code st, main env fuel = Outcome.returned code st →
      (code = -1 ↔ (env.get_connection uri).2 ≠ none) ∧
      ((env.get_connection uri).2 = none → code = 0)) ∧
    (∀ con d pre post, env.get_connection uri = (con, none) →
      Event.on_open ∈ env.delivered d → lines env.stdin = pre ++ "exit" :: post →
      "exit" ∉ pre → d < fuel → pre.length < fuel →
      ∃ st, main env fuel = Outcome.returned 0 st) := by
  refine ⟨?_, ?_, ?_⟩
  · intro con msg h
    exact ⟨_, main_failed env fuel con msg h⟩
  · intro code st h
    rcases hgc : env.get_connection uri with ⟨con, _ | msg⟩
    · rw [main_resolved env fuel con hgc] at h
      cases hw : wait_loop env fuel (started env con) with
      | spinning st1 => rw [hw] at h; simp at h
      | exited st1 =>
        rw [hw] at h
        simp only at h
        cases hs : send_loop env con fuel { st1 with message := "" } with
        | spinning st2 => rw [hs] at h; simp at h
        | exited st2 =>
          rw [hs] at h
          simp only [Outcome.returned.injEq] at h
          obtain ⟨hc, _⟩ := h
          subst hc
          simp
    · rw [main_failed env fuel con msg hgc] at h
      simp only [Outcome.returned.injEq] at h
      obtain ⟨hc, _⟩ := h
      subst hc
      simp
  · intro con d pre post hres hopen hl hpre hd hf
    obtain ⟨st, h, _⟩ := main_returns env fuel con d pre post hres hopen hl hpre hd hf
    exact ⟨st, h⟩

/-- Instance of C9: `failing_env` returns -1; `demo_env`, with a failing send and a
failing close, returns 0. -/
theorem exit_status_witness :
    failing_env.get_connection uri = (0, some "invalid uri") ∧
    (∃ st, main failing_env 5 = Outcome.returned (-1) st) ∧
    demo_env.get_connection uri = (7, none) ∧
    Event.on_open ∈ demo_env.delivered 2 ∧
    lines demo_env.stdin = ["", "Exit", " exit", "exit "] ++ "exit" :: ["later", ""] ∧
    "exit" ∉ ["", "Exit", " exit", "exit "] ∧
    (∃ st, main demo_env 5 = Outcome.returned 0 st) ∧
    ((0 : Int) = -1 ↔ (demo_env.get_connection uri).2 ≠ none) :=
  ⟨rfl, (exit_status failing_env 5).1 0 "invalid uri" rfl, rfl, by decide, by decide,
    by decide,
    (exit_status demo_env 5).2.2 7 2 ["", "Exit", " exit", "exit "] ["later", ""] rfl
      (by decide) (by decide) (by decide) (by decide) (by decide),
    ((exit_status demo_env 5).2.1 0 (main demo_env 5).state (by decide)).1⟩

end MyWebsocket
